import Mathlib

/-!
Shallow embedding of the TCP throughput benchmark in `app/ipref.c`
(`test_tcp_server` and `test_tcp_client`), together with proofs of the
specified properties of its accept/drain loop and greeting-then-stream loop.

Transport-provider calls (`sock_tcp_connect`, `sock_tcp_write`,
`sock_tcp_read`, `sock_tcp_accept`, `sock_tcp_listen`) are modelled by
their integer results, supplied as inputs; the monotonic clock
`xtimer_now_usec` is modelled by a sequence of `Nat` readings reduced
modulo 2^32 (it returns a `uint32_t`).  A run over a finite input list is
a finite prefix of the (possibly infinite) C loop: the loops emit an
event trace, and a `none` return value means the routine has not
returned within the supplied inputs.
-/

/-- Size in bytes of the global scratch/filler buffer `buf` (`uint8_t buf[2 * 1024]`). -/
def bufSize : Nat := 2 * 1024

/-- Size in bytes of the handshake write: `sizeof("Hello!")`, six letters plus the NUL. -/
def helloSize : Nat := 7

/-- The reporting threshold `2000 * 1000` microseconds from the stream loop. -/
def reportInterval : Nat := 2000 * 1000

/-- Unsigned 32-bit subtraction `a - b`, as computed on the `uint32_t`
ticks `tick2 - tick1` in the client. -/
def sub32 (a b : Nat) : Nat := (a % 2 ^ 32 + 2 ^ 32 - b % 2 ^ 32) % 2 ^ 32

/-- The throughput expression of the client, in exact rational arithmetic:
`(float)sentlen * 8 * 1000 * 1000 / 1024 / 1024 / (tick2 - tick1)`. -/
def rate (sentlen dt : Nat) : ℚ :=
  (sentlen : ℚ) * 8 * 1000 * 1000 / 1024 / 1024 / (dt : ℚ)

/-- Observable events of a run: transport calls with their results, and
throughput reports.  A report records the elapsed `uint32_t` tick
difference `dt` and the printed rate. -/
inductive Event where
  | listenErr : Event
  | acceptCall : Event
  | acceptErr : Event
  | acceptOk : Event
  | read : Int → Event
  | write : Nat → Int → Event
  | report : Nat → ℚ → Event
  | disconnect : Event
  deriving DecidableEq, Repr

/-- Whether an event is a `sock_tcp_write` call (of any size, any result). -/
def Event.isWrite : Event → Bool
  | Event.write _ _ => true
  | _ => false

/-- Whether an event is a stream-phase write call, i.e. a write of the
full 2048-byte filler buffer. -/
def Event.isStreamWrite : Event → Bool
  | Event.write sz _ => sz == bufSize
  | _ => false

/-- Whether an event is a `sock_tcp_disconnect` call. -/
def Event.isDisconnect : Event → Bool
  | Event.disconnect => true
  | _ => false

/-- Whether an event is a `sock_tcp_accept` call. -/
def Event.isAcceptCall : Event → Bool
  | Event.acceptCall => true
  | _ => false

/-- Whether an event is a successful `sock_tcp_accept`. -/
def Event.isAcceptOk : Event → Bool
  | Event.acceptOk => true
  | _ => false

/-- Whether an event is a `sock_tcp_read` call. -/
def Event.isRead : Event → Bool
  | Event.read _ => true
  | _ => false

/-- Number of events in a trace satisfying a predicate. -/
def countEv (f : Event → Bool) (evs : List Event) : Nat := (evs.filter f).length

/-- Number of write calls in a trace. -/
def countWrites (evs : List Event) : Nat := countEv Event.isWrite evs

/-- Number of stream-phase (2048-byte) write calls in a trace. -/
def countStreamWrites (evs : List Event) : Nat := countEv Event.isStreamWrite evs

/-- Number of disconnect calls in a trace. -/
def countDisconnects (evs : List Event) : Nat := countEv Event.isDisconnect evs

/-- Number of accept calls in a trace. -/
def countAcceptCalls (evs : List Event) : Nat := countEv Event.isAcceptCall evs

/-- Number of read calls in a trace. -/
def countReads (evs : List Event) : Nat := countEv Event.isRead evs

/-! ## Client model (`test_tcp_client`) -/

/-- Mutable state of the client's stream loop: the byte counter
`uint64_t sentlen`, the reference tick `uint32_t tick1`, and the content
of the global filler buffer `buf`. -/
structure StreamState where
  sentlen : Nat
  tick1 : Nat
  buf : List Nat
  deriving DecidableEq, Repr

/-- Step 1–2 of a stream-loop iteration: read `tick2 = xtimer_now_usec()`
and, if `tick2 - tick1 >= 2000 * 1000`, print the rate, then set
`tick1 = tick2` and `sentlen = 0`. -/
def reportPhase (s : StreamState) (tick2 : Nat) : List Event × StreamState :=
  let dt := sub32 tick2 s.tick1
  if reportInterval ≤ dt then
    ([Event.report dt (rate s.sentlen dt)],
     { sentlen := 0, tick1 := tick2 % 2 ^ 32, buf := s.buf })
  else
    ([], s)

/-- Step 3–5 of a stream-loop iteration: `sock_tcp_write(&sock, buf,
sizeof(buf))` with result `wres`; on failure break out of the loop, on
success `sentlen += sizeof(buf)`.  The `Bool` is true when the loop
breaks. -/
def writePhase (s : StreamState) (wres : Int) : List Event × StreamState × Bool :=
  if wres < 0 then
    ([Event.write bufSize wres], s, true)
  else
    ([Event.write bufSize wres],
     { sentlen := s.sentlen + bufSize, tick1 := s.tick1, buf := s.buf }, false)

/-- The client's `while (1)` stream loop, run over a finite list of
iteration inputs `(tick2, write result)`.  Returns the emitted events,
the final state, and `some w` when the loop broke on a failed write with
result `w` (`none`: the inputs ran out with the loop still going). -/
def streamLoop : StreamState → List (Nat × Int) → List Event × StreamState × Option Int
  | s, [] => ([], s, none)
  | s, (t, w) :: rest =>
    let p1 := reportPhase s t
    let p2 := writePhase p1.2 w
    if p2.2.2 then
      (p1.1 ++ p2.1, p2.2.1, some w)
    else
      let p3 := streamLoop p2.2.1 rest
      (p1.1 ++ p2.1 ++ p3.1, p3.2.1, p3.2.2)

/-- The filler buffer content after `memset(buf, 97, sizeof(buf))`. -/
def clientBuf : List Nat := List.replicate bufSize 97

/-- Stream-loop state right after a successful handshake write:
`sentlen = 0`, `tick1 = xtimer_now_usec()`, buffer filled with 97. -/
def initStream (tick0 : Nat) : StreamState :=
  { sentlen := 0, tick1 := tick0 % 2 ^ 32, buf := clientBuf }

/-- The whole of `test_tcp_client`, driven by the connect result, the
handshake-write result, the clock reading `tick0` taken after a
successful handshake, and the stream-loop iteration inputs.  Returns the
event trace and `some r` when the routine returned with value `r`. -/
def runClient (connectRes handshakeRes : Int) (tick0 : Nat)
    (steps : List (Nat × Int)) : List Event × Option Int :=
  if connectRes < 0 then
    ([], some 1)
  else if handshakeRes < 0 then
    ([Event.write helloSize handshakeRes, Event.disconnect], some handshakeRes)
  else
    let p := streamLoop (initStream tick0) steps
    match p.2.2 with
    | some r => (Event.write helloSize handshakeRes :: p.1 ++ [Event.disconnect], some r)
    | none => (Event.write helloSize handshakeRes :: p.1, none)

/-! ## Server model (`test_tcp_server`) -/

/-- One outcome of a `sock_tcp_accept` call: an error, or a connection
whose successive `sock_tcp_read` results are the given list. -/
inductive AcceptOutcome where
  | err : AcceptOutcome
  | ok : List Int → AcceptOutcome
  deriving DecidableEq, Repr

/-- The server's inner drain loop `while (read_res >= 0)`: reads until a
read returns a negative result.  The `Bool` is true when the loop ended
on a read error (the only way it ends). -/
def connEvents : List Int → List Event × Bool
  | [] => ([], false)
  | r :: rest =>
    if r < 0 then
      ([Event.read r], true)
    else
      let p := connEvents rest
      (Event.read r :: p.1, p.2)

/-- The server's outer `while (1)` accept loop over a finite list of
accept outcomes.  On accept error it logs and loops back to accept; on
success it drains the connection and, once the drain loop breaks,
disconnects and loops back to accept.  A connection whose read inputs
run out without an error leaves the server still inside the drain loop,
so the trace stops there. -/
def serverLoop : List AcceptOutcome → List Event
  | [] => []
  | AcceptOutcome.err :: rest =>
    Event.acceptCall :: Event.acceptErr :: serverLoop rest
  | AcceptOutcome.ok reads :: rest =>
    let p := connEvents reads
    if p.2 then
      Event.acceptCall :: Event.acceptOk :: p.1 ++ Event.disconnect :: serverLoop rest
    else
      Event.acceptCall :: Event.acceptOk :: p.1

/-- The whole of `test_tcp_server`: on listen failure print and
`return 1`; otherwise enter the accept loop, which never returns. -/
def runServer (listenRes : Int) (outs : List AcceptOutcome) :
    List Event × Option Int :=
  if listenRes < 0 then
    ([Event.listenErr], some 1)
  else
    (serverLoop outs, none)

/-- Control state of the server's accept loop.  `terminated` would mean
the `while (1)` loop was exited; the loop body has no `break` or
`return`, so both branches of the accept return control to the top of
the loop. -/
inductive ServerPhase where
  | accepting : ServerPhase
  | terminated : ServerPhase
  deriving DecidableEq, Repr

/-- Phase transition of one accept-loop iteration, read off the source:
the error branch only prints, the success branch drains and disconnects;
neither leaves the loop. -/
def serverPhaseStep : ServerPhase → AcceptOutcome → ServerPhase
  | ServerPhase.accepting, AcceptOutcome.err => ServerPhase.accepting
  | ServerPhase.accepting, AcceptOutcome.ok _ => ServerPhase.accepting
  | ServerPhase.terminated, _ => ServerPhase.terminated

/-- Server phase after a sequence of accept outcomes. -/
def serverPhaseAfter (outs : List AcceptOutcome) : ServerPhase :=
  outs.foldl serverPhaseStep ServerPhase.accepting

/-! ## Specification-side predicates -/

/-- Modelled from the spec: the throughput formula of the claim,
`(Σ sᵢ × 8 × 10^6) / (1024 × 1024 × Δt)` with `acc = Σ sᵢ`. -/
def specRate (acc dt : Nat) : ℚ :=
  (acc : ℚ) * 8 * 10 ^ 6 / (1024 * 1024 * (dt : ℚ))

/-- Modelled from the spec: scans a trace keeping `acc`, the sum of the
sizes of the successful writes since the last report, and checks that
every report's elapsed time is at least 2,000,000 µs and its rate equals
`specRate acc dt`. -/
def specWindowsOK : Nat → List Event → Bool
  | _, [] => true
  | acc, Event.write sz res :: rest =>
    specWindowsOK (if 0 ≤ res then acc + sz else acc) rest
  | acc, Event.report dt r :: rest =>
    decide (2000000 ≤ dt) && decide (r = specRate acc dt) && specWindowsOK 0 rest
  | acc, _ :: rest => specWindowsOK acc rest

/-- Modelled from the spec: scans a server trace tracking whether a
connection handle is currently active; checks that no accept call begins
while a handle is active and that every disconnect releases an active
handle (so at most one handle is ever held). -/
def singleConnOK : Bool → List Event → Bool
  | _, [] => true
  | active, Event.acceptCall :: rest => !active && singleConnOK active rest
  | active, Event.acceptOk :: rest => !active && singleConnOK true rest
  | active, Event.disconnect :: rest => active && singleConnOK false rest
  | active, _ :: rest => singleConnOK active rest

/-! ## Helper lemmas -/

lemma rate_eq_specRate (acc dt : Nat) : rate acc dt = specRate acc dt := by
  unfold rate specRate
  ring

lemma specWindowsOK_streamLoop (steps : List (Nat × Int)) :
    ∀ s : StreamState, specWindowsOK s.sentlen (streamLoop s steps).1 = true := by
  induction steps with
  | nil => intro s; rfl
  | cons p rest ih =>
    obtain ⟨t, w⟩ := p
    intro s
    by_cases hr : reportInterval ≤ sub32 t s.tick1
    · have h2 : (2000000 : Nat) ≤ sub32 t s.tick1 := by
        simpa [reportInterval] using hr
      by_cases hw : w < 0
      · simp [streamLoop, reportPhase, writePhase, hr, hw, specWindowsOK, h2,
          rate_eq_specRate]
      · have hw2 : (0 : Int) ≤ w := not_lt.mp hw
        simp only [streamLoop, reportPhase, writePhase, hr, hw, if_true, if_false,
          if_pos, if_neg, not_false_iff]
        simp [specWindowsOK, h2, hw2, rate_eq_specRate]
        simpa using ih { sentlen := bufSize, tick1 := t % 2 ^ 32, buf := s.buf }
    · by_cases hw : w < 0
      · simp [streamLoop, reportPhase, writePhase, hr, hw, specWindowsOK]
      · have hw2 : (0 : Int) ≤ w := not_lt.mp hw
        simp only [streamLoop, reportPhase, writePhase, hr, hw, if_true, if_false,
          if_pos, if_neg, not_false_iff]
        simp [specWindowsOK, hw2]
        simpa using
          ih { sentlen := s.sentlen + bufSize, tick1 := s.tick1, buf := s.buf }

lemma countEv_nil (f : Event → Bool) : countEv f [] = 0 := rfl

lemma countEv_append (f : Event → Bool) (a b : List Event) :
    countEv f (a ++ b) = countEv f a + countEv f b := by
  simp [countEv, List.filter_append]

lemma countEv_cons (f : Event → Bool) (e : Event) (l : List Event) :
    countEv f (e :: l) = (if f e then 1 else 0) + countEv f l := by
  by_cases h : f e <;> simp [countEv, List.filter_cons, h, Nat.add_comm]

lemma streamLoop_no_disconnect (steps : List (Nat × Int)) :
    ∀ s : StreamState, countEv Event.isDisconnect (streamLoop s steps).1 = 0 := by
  induction steps with
  | nil => intro s; rfl
  | cons p rest ih =>
    obtain ⟨t, w⟩ := p
    intro s
    by_cases hr : reportInterval ≤ sub32 t s.tick1 <;>
      by_cases hw : w < 0 <;>
        simp only [streamLoop, reportPhase, writePhase, hr, hw, if_true, if_false,
          if_pos, if_neg, not_false_iff] <;>
        simp [countEv_append, countEv_cons, countEv_nil, Event.isDisconnect, ih]

lemma streamLoop_break (good : List (Nat × Int)) :
    ∀ s : StreamState, ∀ t : Nat, ∀ w : Int, ∀ rest : List (Nat × Int),
      (∀ p ∈ good, 0 ≤ (p : Nat × Int).2) → w < 0 →
      countEv Event.isStreamWrite (streamLoop s (good ++ (t, w) :: rest)).1 =
        good.length + 1 ∧
      (streamLoop s (good ++ (t, w) :: rest)).2.2 = some w := by
  induction good with
  | nil =>
    intro s t w rest _ hw
    by_cases hr : reportInterval ≤ sub32 t s.tick1 <;>
      simp [streamLoop, reportPhase, writePhase, hr, hw, countEv_append,
        countEv_cons, countEv_nil, Event.isStreamWrite]
  | cons q good ih =>
    obtain ⟨t0, w0⟩ := q
    intro s t w rest hgood hw
    have hw0 : (0 : Int) ≤ w0 := hgood (t0, w0) (List.mem_cons_self _ _)
    have hw0n : ¬ w0 < 0 := not_lt.mpr hw0
    have hrest : ∀ p ∈ good, 0 ≤ (p : Nat × Int).2 := fun p hp =>
      hgood p (List.mem_cons_of_mem _ hp)
    by_cases hr : reportInterval ≤ sub32 t0 s.tick1
    · have h1 := ih { sentlen := bufSize, tick1 := t0 % 2 ^ 32, buf := s.buf }
        t w rest hrest hw
      norm_num at h1
      simp only [List.cons_append, streamLoop, reportPhase, writePhase, hr, hw0n,
        if_true, if_false, if_pos, if_neg, not_false_iff]
      simp [countEv_append, countEv_cons, countEv_nil, Event.isStreamWrite, h1.1, h1.2]
      omega
    · have h1 := ih { sentlen := s.sentlen + bufSize, tick1 := s.tick1, buf := s.buf }
        t w rest hrest hw
      simp only [List.cons_append, streamLoop, reportPhase, writePhase, hr, hw0n,
        if_true, if_false, if_pos, if_neg, not_false_iff]
      simp [countEv_append, countEv_cons, countEv_nil, Event.isStreamWrite, h1.1, h1.2]
      omega

lemma streamLoop_buf (steps : List (Nat × Int)) :
    ∀ s : StreamState, ((streamLoop s steps).2.1).buf = s.buf := by
  induction steps with
  | nil => intro s; rfl
  | cons p rest ih =>
    obtain ⟨t, w⟩ := p
    intro s
    by_cases hr : reportInterval ≤ sub32 t s.tick1 <;>
      by_cases hw : w < 0 <;>
        simp only [streamLoop, reportPhase, writePhase, hr, hw, if_true, if_false,
          if_pos, if_neg, not_false_iff] <;>
        simp [ih]

lemma streamLoop_first_write (s : StreamState) (t : Nat) (w : Int)
    (rest : List (Nat × Int)) :
    1 ≤ countEv Event.isStreamWrite (streamLoop s ((t, w) :: rest)).1 := by
  by_cases hr : reportInterval ≤ sub32 t s.tick1 <;>
    by_cases hw : w < 0 <;>
      simp only [streamLoop, reportPhase, writePhase, hr, hw, if_true, if_false,
        if_pos, if_neg, not_false_iff] <;>
      simp [countEv_append, countEv_cons, countEv_nil, Event.isStreamWrite]

lemma connEvents_break (goods : List Int) :
    ∀ r : Int, ∀ tail : List Int, (∀ x ∈ goods, 0 ≤ x) → r < 0 →
      connEvents (goods ++ r :: tail) =
        (goods.map Event.read ++ [Event.read r], true) := by
  induction goods with
  | nil => intro r tail _ hr; simp [connEvents, hr]
  | cons x goods ih =>
    intro r tail hg hr
    have hx : (0 : Int) ≤ x := hg x (List.mem_cons_self _ _)
    have hxn : ¬ x < 0 := not_lt.mpr hx
    have hrest : ∀ y ∈ goods, (0 : Int) ≤ y := fun y hy =>
      hg y (List.mem_cons_of_mem _ hy)
    simp [connEvents, hxn, ih r tail hrest hr]

lemma singleConnOK_reads (evs : List Event) :
    (∀ e ∈ evs, Event.isRead e = true) →
    ∀ active : Bool, ∀ l : List Event,
      singleConnOK active (evs ++ l) = singleConnOK active l := by
  induction evs with
  | nil => intro _ active l; rfl
  | cons e evs ih =>
    intro h active l
    have he : Event.isRead e = true := h e (List.mem_cons_self _ _)
    have hrest : ∀ e ∈ evs, Event.isRead e = true := fun x hx =>
      h x (List.mem_cons_of_mem _ hx)
    cases e <;> simp [Event.isRead] at he
    simp [singleConnOK, ih hrest active l]

lemma connEvents_all_reads (reads : List Int) :
    ∀ e ∈ (connEvents reads).1, Event.isRead e = true := by
  induction reads with
  | nil => intro e he; simp [connEvents] at he
  | cons r rest ih =>
    intro e he
    by_cases hr : r < 0 <;> simp [connEvents, hr] at he
    · simp [he, Event.isRead]
    · rcases he with he | he
      · simp [he, Event.isRead]
      · exact ih e he

/-! ## Claims -/

/-- C1: in every reporting window of the client's stream loop, if the
successful writes since the last report have sizes s₁…sₙ and the elapsed
tick difference is dt ≥ 2,000,000 µs, the reported rate equals
(Σ sᵢ × 8 × 10⁶) / (1024 × 1024 × dt), checked exactly in ℚ. -/
theorem c1_throughput_formula (tick0 : Nat) (steps : List (Nat × Int)) :
    specWindowsOK 0 (streamLoop (initStream tick0) steps).1 = true := by
  simpa using specWindowsOK_streamLoop steps (initStream tick0)

/-- C2: immediately after a throughput report fires in the stream loop,
the byte counter `sentlen` is 0 and the reference `tick1` is the clock
value `tick2` read for that report. -/
theorem c2_counter_reset (s : StreamState) (t : Nat)
    (h : reportInterval ≤ sub32 t s.tick1) :
    (reportPhase s t).1 =
      [Event.report (sub32 t s.tick1) (rate s.sentlen (sub32 t s.tick1))] ∧
    (reportPhase s t).2 = { sentlen := 0, tick1 := t % 2 ^ 32, buf := s.buf } := by
  constructor <;> simp [reportPhase, h]

/-- Witness for C2 at a concrete state and clock value. -/
theorem c2_counter_reset_witness :
    (reportPhase { sentlen := 4096, tick1 := 0, buf := [] } 2000000).2 =
      { sentlen := 0, tick1 := 2000000 % 2 ^ 32, buf := [] } :=
  (c2_counter_reset { sentlen := 4096, tick1 := 0, buf := [] } 2000000
    (by decide)).2

/-- C8 as stated is false: a successful write whose returned count is
100 still increases `sentlen` by `sizeof(buf)` = 2048, not by 100. -/
theorem c8_counterexample :
    ¬ ((writePhase { sentlen := 0, tick1 := 0, buf := [] } 100).2.1.sentlen
        = 0 + 100) := by
  decide

/-- C8 amended: on a successful write (non-negative result) `sentlen`
increases by exactly the buffer size 2048 that was asked to be written,
whatever count the write call returned; on a failed write it is
unchanged. -/
theorem c8_accumulate (s : StreamState) (w : Int) :
    (0 ≤ w → (writePhase s w).2.1.sentlen = s.sentlen + bufSize) ∧
    (w < 0 → (writePhase s w).2.1.sentlen = s.sentlen) := by
  constructor
  · intro h
    simp [writePhase, not_lt.mpr h]
  · intro h
    simp [writePhase, h]

/-- Witness for C8's amended statement on both branches. -/
theorem c8_accumulate_witness :
    (writePhase { sentlen := 5, tick1 := 0, buf := [] } 2048).2.1.sentlen
        = 5 + bufSize ∧
    (writePhase { sentlen := 5, tick1 := 0, buf := [] } (-1)).2.1.sentlen = 5 :=
  ⟨(c8_accumulate { sentlen := 5, tick1 := 0, buf := [] } 2048).1 (by decide),
   (c8_accumulate { sentlen := 5, tick1 := 0, buf := [] } (-1)).2 (by decide)⟩

/-- C9: the filler buffer holds 2048 bytes all equal to 97 at the start
of the stream phase and after every iteration of the stream loop; the
loop never mutates it. -/
theorem c9_buffer_constant (tick0 : Nat) (steps : List (Nat × Int)) (i : Nat) :
    ((streamLoop (initStream tick0) (List.take i steps)).2.1).buf =
      List.replicate bufSize 97 := by
  rw [streamLoop_buf]
  rfl

lemma no_disconnect_in_reads (goods : List Int) :
    countEv Event.isDisconnect (goods.map Event.read) = 0 := by
  induction goods with
  | nil => rfl
  | cons x goods ih => simp [countEv_cons, Event.isDisconnect, ih]

/-- C4: when `sock_tcp_connect` fails, the client returns 1 (nonzero)
with no write call and no disconnect call. -/
theorem c4_connect_failure (cres hres : Int) (tick0 : Nat)
    (steps : List (Nat × Int)) (h : cres < 0) :
    countWrites (runClient cres hres tick0 steps).1 = 0 ∧
    countDisconnects (runClient cres hres tick0 steps).1 = 0 ∧
    (runClient cres hres tick0 steps).2 = some 1 := by
  simp [runClient, h, countWrites, countDisconnects, countEv]

/-- Witness for C4 with a failing connect result. -/
theorem c4_connect_failure_witness :
    countWrites (runClient (-1) 0 0 []).1 = 0 ∧
    countDisconnects (runClient (-1) 0 0 []).1 = 0 ∧
    (runClient (-1) 0 0 []).2 = some 1 :=
  c4_connect_failure (-1) 0 0 [] (by decide)

/-- C10: when `sock_tcp_listen` fails, the server reports the failure
and returns 1 with no accept, read, or disconnect call. -/
theorem c10_listen_failure (lres : Int) (outs : List AcceptOutcome)
    (h : lres < 0) :
    (runServer lres outs).1 = [Event.listenErr] ∧
    countAcceptCalls (runServer lres outs).1 = 0 ∧
    countReads (runServer lres outs).1 = 0 ∧
    countDisconnects (runServer lres outs).1 = 0 ∧
    (runServer lres outs).2 = some 1 := by
  simp [runServer, h, countAcceptCalls, countReads, countDisconnects, countEv,
    Event.isAcceptCall, Event.isRead, Event.isDisconnect]

/-- Witness for C10 with a failing listen result. -/
theorem c10_listen_failure_witness :
    (runServer (-1) [AcceptOutcome.err]).1 = [Event.listenErr] ∧
    countAcceptCalls (runServer (-1) [AcceptOutcome.err]).1 = 0 ∧
    countReads (runServer (-1) [AcceptOutcome.err]).1 = 0 ∧
    countDisconnects (runServer (-1) [AcceptOutcome.err]).1 = 0 ∧
    (runServer (-1) [AcceptOutcome.err]).2 = some 1 :=
  c10_listen_failure (-1) [AcceptOutcome.err] (by decide)

/-- C5: after a successful listen the server never terminates: the
`terminated` phase is unreachable for any sequence of accept outcomes,
an accept error only logs and loops straight back to the next accept,
and the routine never returns. -/
theorem c5_accept_failure_retries :
    (∀ outs : List AcceptOutcome, serverPhaseAfter outs = ServerPhase.accepting) ∧
    (∀ outs : List AcceptOutcome,
      serverLoop (AcceptOutcome.err :: outs) =
        Event.acceptCall :: Event.acceptErr :: serverLoop outs) ∧
    (∀ (lres : Int) (outs : List AcceptOutcome), 0 ≤ lres →
      (runServer lres outs).2 = none) := by
  refine ⟨?_, ?_, ?_⟩
  · intro outs
    induction outs with
    | nil => rfl
    | cons o rest ih =>
      cases o <;> simpa [serverPhaseAfter, serverPhaseStep] using ih
  · intro outs
    rfl
  · intro lres outs h
    simp [runServer, not_lt.mpr h]

/-- Witness for C5: three consecutive accept failures then a success,
with a successful listen. -/
theorem c5_accept_failure_retries_witness :
    serverPhaseAfter [AcceptOutcome.err, AcceptOutcome.err, AcceptOutcome.err,
      AcceptOutcome.ok [-1]] = ServerPhase.accepting ∧
    (runServer 0 [AcceptOutcome.err, AcceptOutcome.err, AcceptOutcome.err,
      AcceptOutcome.ok [-1]]).2 = none :=
  ⟨c5_accept_failure_retries.1 _,
   c5_accept_failure_retries.2.2 0 _ (by decide)⟩

/-- C6: the server holds at most one active connection handle at any
point of any trace, and a disconnect always precedes the next accept. -/
theorem c6_single_connection (outs : List AcceptOutcome) :
    singleConnOK false (serverLoop outs) = true := by
  induction outs with
  | nil => rfl
  | cons o rest ih =>
    cases o with
    | err => simpa [serverLoop, singleConnOK] using ih
    | ok reads =>
      by_cases hb : (connEvents reads).2 = true
      · simp only [serverLoop, hb, if_true]
        simp only [singleConnOK, Bool.not_false, Bool.true_and, List.append_eq]
        rw [singleConnOK_reads (connEvents reads).1 (connEvents_all_reads reads)
          true (Event.disconnect :: serverLoop rest)]
        simpa [singleConnOK] using ih
      · simp only [serverLoop, hb, if_false]
        simp only [singleConnOK, Bool.not_false, Bool.true_and]
        have h0 := singleConnOK_reads (connEvents reads).1
          (connEvents_all_reads reads) true []
        simpa using h0

/-- C3: exactly one disconnect on every exit path of an established
connection.  Part 1: a client whose k-th stream write fails after k-1
successes stops writing (k stream writes in total) and disconnects
exactly once.  Part 2: a client whose handshake write fails performs no
stream write and disconnects exactly once.  Part 3: a server drain loop
that ends on a read error emits exactly one disconnect, placed before
the server's next accept. -/
theorem c3_disconnect_exactly_once :
    (∀ (cres hres : Int) (tick0 : Nat) (good : List (Nat × Int)) (t : Nat)
        (w : Int) (rest : List (Nat × Int)),
      0 ≤ cres → 0 ≤ hres → (∀ p ∈ good, 0 ≤ (p : Nat × Int).2) → w < 0 →
      countDisconnects (runClient cres hres tick0 (good ++ (t, w) :: rest)).1
          = 1 ∧
      countStreamWrites (runClient cres hres tick0 (good ++ (t, w) :: rest)).1
          = good.length + 1) ∧
    (∀ (cres hres : Int) (tick0 : Nat) (steps : List (Nat × Int)),
      0 ≤ cres → hres < 0 →
      countDisconnects (runClient cres hres tick0 steps).1 = 1 ∧
      countStreamWrites (runClient cres hres tick0 steps).1 = 0) ∧
    (∀ (goods : List Int) (r : Int) (tail : List Int)
        (outs : List AcceptOutcome),
      (∀ x ∈ goods, 0 ≤ x) → r < 0 →
      serverLoop (AcceptOutcome.ok (goods ++ r :: tail) :: outs) =
        Event.acceptCall :: Event.acceptOk ::
          (goods.map Event.read ++ [Event.read r]) ++
            Event.disconnect :: serverLoop outs ∧
      countDisconnects (goods.map Event.read ++ [Event.read r]) = 0) := by
  refine ⟨?_, ?_, ?_⟩
  · intro cres hres tick0 good t w rest h1 h2 hgood hw
    have hc : ¬ cres < 0 := not_lt.mpr h1
    have hh : ¬ hres < 0 := not_lt.mpr h2
    have hb := streamLoop_break good (initStream tick0) t w rest hgood hw
    constructor
    · simp [runClient, hc, hh, hb.2, countDisconnects, countEv_cons,
        countEv_append, countEv_nil, Event.isDisconnect,
        streamLoop_no_disconnect]
    · simp [runClient, hc, hh, hb.2, countStreamWrites, countEv_cons,
        countEv_append, countEv_nil, Event.isStreamWrite, helloSize, bufSize,
        hb.1]
  · intro cres hres tick0 steps h1 h2
    have hc : ¬ cres < 0 := not_lt.mpr h1
    constructor
    · simp [runClient, hc, h2, countDisconnects, countEv_cons, countEv_nil,
        Event.isDisconnect]
    · simp [runClient, hc, h2, countStreamWrites, countEv_cons, countEv_nil,
        Event.isStreamWrite, helloSize, bufSize]
  · intro goods r tail outs hg hr
    have hce := connEvents_break goods r tail hg hr
    constructor
    · simp [serverLoop, hce]
    · simp [countDisconnects, countEv_append, countEv_cons, countEv_nil,
        Event.isDisconnect, no_disconnect_in_reads]

/-- Witness for C3: the spec's mid-stream scenario (5th write fails
after four successful 2048-byte writes), a failing handshake, and a
server drain ending in a read error. -/
theorem c3_disconnect_exactly_once_witness :
    (countDisconnects (runClient 0 7 0
        ([(0, 2048), (1, 2048), (2, 2048), (3, 2048)] ++ (4, -1) :: [])).1
      = 1 ∧
     countStreamWrites (runClient 0 7 0
        ([(0, 2048), (1, 2048), (2, 2048), (3, 2048)] ++ (4, -1) :: [])).1
      = 4 + 1) ∧
    countDisconnects (runClient 0 (-1) 0 []).1 = 1 ∧
    countDisconnects ([(5 : Int)].map Event.read ++ [Event.read (-1)]) = 0 := by
  refine ⟨?_, ?_, ?_⟩
  · exact c3_disconnect_exactly_once.1 0 7 0
      [(0, 2048), (1, 2048), (2, 2048), (3, 2048)] 4 (-1) []
      (by decide) (by decide) (by decide) (by decide)
  · exact (c3_disconnect_exactly_once.2.1 0 (-1) 0 [] (by decide) (by decide)).1
  · exact (c3_disconnect_exactly_once.2.2 [5] (-1) [] [] (by decide)
      (by decide)).2

/-- C7 as stated is false: with a successful connect, a failed handshake
write (result -1) and a pending stream-loop input, the client performs
zero stream writes — it never enters the stream loop. -/
theorem c7_counterexample :
    ¬ (1 ≤ countStreamWrites (runClient 0 (-1) 0 [(0, 1)]).1) := by
  decide

/-- C7 amended: the stream loop is entered iff the handshake write
succeeds.  On a failed handshake write the client performs zero stream
writes (it skips the stream loop and disconnects); on a successful
handshake write it performs at least one stream write. -/
theorem c7_streaming_gated_on_handshake :
    (∀ (cres hres : Int) (tick0 : Nat) (steps : List (Nat × Int)),
      0 ≤ cres → hres < 0 →
      countStreamWrites (runClient cres hres tick0 steps).1 = 0) ∧
    (∀ (cres hres : Int) (tick0 t : Nat) (w : Int) (steps : List (Nat × Int)),
      0 ≤ cres → 0 ≤ hres →
      1 ≤ countStreamWrites (runClient cres hres tick0 ((t, w) :: steps)).1) := by
  constructor
  · intro cres hres tick0 steps h1 h2
    have hc : ¬ cres < 0 := not_lt.mpr h1
    simp [runClient, hc, h2, countStreamWrites, countEv_cons, countEv_nil,
      Event.isStreamWrite, helloSize, bufSize]
  · intro cres hres tick0 t w steps h1 h2
    have hc : ¬ cres < 0 := not_lt.mpr h1
    have hh : ¬ hres < 0 := not_lt.mpr h2
    have h3 := streamLoop_first_write (initStream tick0) t w steps
    rcases hm : (streamLoop (initStream tick0) ((t, w) :: steps)).2.2 with _ | r
    · simp only [runClient, hc, hh, if_neg, if_false, not_false_iff, hm]
      simpa [countStreamWrites, countEv_cons, Event.isStreamWrite, helloSize,
        bufSize] using h3
    · simp only [runClient, hc, hh, if_neg, if_false, not_false_iff, hm]
      simp [countStreamWrites, countEv_cons, countEv_append, countEv_nil,
        Event.isStreamWrite, helloSize, bufSize]
      omega

/-- Witness for C7's amended statement on both branches. -/
theorem c7_streaming_gated_on_handshake_witness :
    countStreamWrites (runClient 0 (-2) 0 [(0, 1)]).1 = 0 ∧
    1 ≤ countStreamWrites (runClient 0 7 0 [(0, -1)]).1 :=
  ⟨c7_streaming_gated_on_handshake.1 0 (-2) 0 [(0, 1)] (by decide) (by decide),
   c7_streaming_gated_on_handshake.2 0 7 0 0 (-1) [] (by decide) (by decide)⟩
